import Mathlib

/-!
Verification development for the BOE downloader (boe_downloader_http.py,
boe_downloader_pipeline.py, boe_downloader_web.py, boe_downloader_parsing.py).
Each Python function relevant to the checked properties is embedded as an
executable Lean definition; stateful code becomes explicit state passing and
the event-driven fetch loop becomes a fueled state machine over a network
oracle.  HTTP statuses are `Int` (Python ints), byte payloads are `List Nat`,
and latencies/delays are `ℚ` (exact values of the floating-point samples;
comparisons on them are order-faithful).
-/

set_option maxRecDepth 100000

namespace Boe

/-! ## RunStats (boe_downloader_http.py, class RunStats) -/

/-- Counters of `RunStats`.  `win_lat` keeps the recorded latencies,
`win_started` is irrelevant to the counters and omitted. -/
structure RunStats where
  total_done : Nat := 0
  total_ok : Nat := 0
  total_skipped_304 : Nat := 0
  total_errors : Nat := 0
  total_http429 : Nat := 0
  total_http5xx : Nat := 0
  total_bytes : Nat := 0
  win_ok : Nat := 0
  win_err : Nat := 0
  win_429 : Nat := 0
  win_5xx : Nat := 0
  win_timeouts : Nat := 0
  win_lat : List ℚ := []
  deriving Repr, DecidableEq

/-- Arguments of one `RunStats.record` call. -/
structure RecordArgs where
  status : Option Int
  latency_s : ℚ
  nbytes : Int
  timeout : Bool := false
  deriving Repr, DecidableEq

/-- Embedding of `RunStats.record` (boe_downloader_http.py lines 83-113).
The Python `if/elif/else` chain is translated branch by branch. -/
def RunStats.record (s : RunStats) (a : RecordArgs) : RunStats :=
  let s := { s with total_done := s.total_done + 1 }
  let s :=
    if a.status = some 304 then
      { s with total_skipped_304 := s.total_skipped_304 + 1 }
    else s
  let s :=
    match a.status with
    | some st =>
        if 200 ≤ st ∧ st < 300 then
          { s with total_ok := s.total_ok + 1, win_ok := s.win_ok + 1 }
        else if st = 304 then s
        else { s with total_errors := s.total_errors + 1, win_err := s.win_err + 1 }
    | none =>
        { s with total_errors := s.total_errors + 1, win_err := s.win_err + 1 }
  let s :=
    if a.status = some 429 then
      { s with total_http429 := s.total_http429 + 1, win_429 := s.win_429 + 1 }
    else s
  let s :=
    match a.status with
    | some st =>
        if 500 ≤ st then
          { s with total_http5xx := s.total_http5xx + 1, win_5xx := s.win_5xx + 1 }
        else s
    | none => s
  let s := if a.timeout then { s with win_timeouts := s.win_timeouts + 1 } else s
  let s := { s with total_bytes := s.total_bytes + (max 0 a.nbytes).toNat }
  { s with win_lat := s.win_lat ++ [max 0 a.latency_s] }

/-- A fresh `RunStats` as built by `RunStats.__init__`. -/
def RunStats.fresh : RunStats := {}

/-- Folding a sequence of `record` calls over a state. -/
def RunStats.recordAll (s : RunStats) (l : List RecordArgs) : RunStats :=
  l.foldl RunStats.record s

/-- Classification of a status by `record`: 304 counts as skipped only,
2xx as ok, anything else (including `None`) as error. -/
def recordClass (st : Option Int) : (Nat × Nat × Nat) :=
  match st with
  | some v =>
      if v = 304 then (0, 1, 0)
      else if 200 ≤ v ∧ v < 300 then (1, 0, 0)
      else (0, 0, 1)
  | none => (0, 0, 1)

lemma record_counters (s : RunStats) (a : RecordArgs) :
    (s.record a).total_done = s.total_done + 1 ∧
    (s.record a).total_ok = s.total_ok + (recordClass a.status).1 ∧
    (s.record a).total_skipped_304 = s.total_skipped_304 + (recordClass a.status).2.1 ∧
    (s.record a).total_errors = s.total_errors + (recordClass a.status).2.2 := by
  rcases a with ⟨st, lat, nb, tmo⟩
  cases st with
  | none =>
      simp only [RunStats.record, recordClass]
      split_ifs <;> simp_all
  | some v =>
      simp only [RunStats.record, recordClass]
      split_ifs <;> simp_all

lemma recordClass_sum (st : Option Int) :
    (recordClass st).1 + (recordClass st).2.1 + (recordClass st).2.2 = 1 := by
  rcases st with _ | v
  · simp [recordClass]
  · by_cases h304 : v = 304 <;> by_cases h2xx : 200 ≤ v ∧ v < 300 <;>
      simp [recordClass, h304, h2xx]

lemma record_preserves_sum (s : RunStats) (a : RecordArgs)
    (h : s.total_done = s.total_ok + s.total_skipped_304 + s.total_errors) :
    (s.record a).total_done =
      (s.record a).total_ok + (s.record a).total_skipped_304 +
        (s.record a).total_errors := by
  obtain ⟨hd, ho, hs, he⟩ := record_counters s a
  have hc := recordClass_sum a.status
  rw [hd, ho, hs, he, h]
  omega

lemma recordAll_sum (s : RunStats) (l : List RecordArgs)
    (h : s.total_done = s.total_ok + s.total_skipped_304 + s.total_errors) :
    (s.recordAll l).total_done =
      (s.recordAll l).total_ok + (s.recordAll l).total_skipped_304 +
        (s.recordAll l).total_errors := by
  induction l generalizing s with
  | nil => simpa [RunStats.recordAll] using h
  | cons a t ih =>
      have := record_preserves_sum s a h
      simpa [RunStats.recordAll] using ih (s.record a) this

/-- C1: every `RunStats.record` call increments `total_done` by one and
exactly one of `total_ok`, `total_skipped_304`, `total_errors` (a 304
increments only `total_skipped_304`, a 2xx increments `total_ok`, any other
status or `None` increments `total_errors`), hence after any sequence of
record calls from a fresh `RunStats`,
`total_done = total_ok + total_skipped_304 + total_errors`. -/
theorem runstats_record_partition :
    (∀ (s : RunStats) (a : RecordArgs),
        (s.record a).total_done = s.total_done + 1 ∧
        (s.record a).total_ok = s.total_ok + (recordClass a.status).1 ∧
        (s.record a).total_skipped_304
            = s.total_skipped_304 + (recordClass a.status).2.1 ∧
        (s.record a).total_errors = s.total_errors + (recordClass a.status).2.2) ∧
    (∀ st : Option Int,
        (recordClass st).1 + (recordClass st).2.1 + (recordClass st).2.2 = 1 ∧
        (st = some 304 → recordClass st = (0, 1, 0)) ∧
        (∀ v, st = some v → 200 ≤ v → v < 300 → recordClass st = (1, 0, 0)) ∧
        (∀ v, st = some v → v ≠ 304 → ¬(200 ≤ v ∧ v < 300) →
          recordClass st = (0, 0, 1)) ∧
        (st = none → recordClass st = (0, 0, 1))) ∧
    (∀ l : List RecordArgs,
        (RunStats.fresh.recordAll l).total_done =
          (RunStats.fresh.recordAll l).total_ok +
            (RunStats.fresh.recordAll l).total_skipped_304 +
            (RunStats.fresh.recordAll l).total_errors) := by
  refine ⟨record_counters, ?_, ?_⟩
  · intro st
    refine ⟨recordClass_sum st, ?_, ?_, ?_, ?_⟩
    · rintro rfl; simp [recordClass]
    · rintro v rfl hlo hhi
      have h304 : v ≠ 304 := by omega
      simp [recordClass, h304, hlo, hhi]
    · rintro v rfl h304 h2xx
      simp [recordClass, h304, h2xx]
    · rintro rfl; simp [recordClass]
  · intro l
    exact recordAll_sum RunStats.fresh l (by simp [RunStats.fresh])

/-! ## Cache addressing (boe_downloader_http.py, url_key / paths_for_url)

The source computes `hashlib.sha256(url.encode("utf-8")).hexdigest()`.  SHA-256
is embedded below in full (FIPS 180-4) over byte lists; SHA-1 is embedded as
well because the specification claims the slot is addressed by `sha1(url)`. -/

def w32 : Nat := 4294967296

def rotr32 (x n : Nat) : Nat := ((x >>> n) ||| (x <<< (32 - n))) % w32

def rotl32 (x n : Nat) : Nat := ((x <<< n) ||| (x >>> (32 - n))) % w32

def not32 (x : Nat) : Nat := x ^^^ (w32 - 1)

/-- Big-endian bytes of a number, `cnt` bytes wide. -/
def natToBytesBE (n cnt : Nat) : List Nat :=
  (List.range cnt).map (fun i => (n >>> (8 * (cnt - 1 - i))) % 256)

/-- Group a byte list into big-endian 32-bit words. -/
def bytesToWordsBE : List Nat → List Nat
  | b0 :: b1 :: b2 :: b3 :: rest =>
      (((b0 * 256 + b1) * 256 + b2) * 256 + b3) :: bytesToWordsBE rest
  | _ => []

/-- Merkle–Damgård padding shared by SHA-1 and SHA-256: append 0x80, zeros to
56 mod 64, then the bit length as 8 big-endian bytes. -/
def shaPad (msg : List Nat) : List Nat :=
  let L := msg.length
  msg ++ [128] ++ List.replicate ((64 - (L + 9) % 64) % 64) 0 ++ natToBytesBE (8 * L) 8

/-- Split into 64-byte blocks (fuel-based structural recursion; the fuel
`l.length + 1` always suffices because each step consumes 64 bytes). -/
def chunks64Aux : Nat → List Nat → List (List Nat)
  | 0, _ => []
  | _ + 1, [] => []
  | fuel + 1, l => l.take 64 :: chunks64Aux fuel (l.drop 64)

def chunks64 (l : List Nat) : List (List Nat) := chunks64Aux (l.length + 1) l

def sha256K : List Nat :=
  [1116352408, 1899447441, 3049323471, 3921009573, 961987163, 1508970993,
   2453635748, 2870763221, 3624381080, 310598401, 607225278, 1426881987,
   1925078388, 2162078206, 2614888103, 3248222580, 3835390401, 4022224774,
   264347078, 604807628, 770255983, 1249150122, 1555081692, 1996064986,
   2554220882, 2821834349, 2952996808, 3210313671, 3336571891, 3584528711,
   113926993, 338241895, 666307205, 773529912, 1294757372, 1396182291,
   1695183700, 1986661051, 2177026350, 2456956037, 2730485921, 2820302411,
   3259730800, 3345764771, 3516065817, 3600352804, 4094571909, 275423344,
   430227734, 506948616, 659060556, 883997877, 958139571, 1322822218,
   1537002063, 1747873779, 1955562222, 2024104815, 2227730452, 2361852424,
   2428436474, 2756734187, 3204031479, 3329325298]

structure Sha256State where
  a : Nat
  b : Nat
  c : Nat
  d : Nat
  e : Nat
  f : Nat
  g : Nat
  h : Nat

def sha256H0 : Sha256State :=
  ⟨1779033703, 3144134277, 1013904242, 2773480762,
   1359893119, 2600822924, 528734635, 1541459225⟩

def sha256Schedule (blk : List Nat) : List Nat :=
  (List.range 48).foldl
    (fun w j =>
      let i := j + 16
      let s0 := rotr32 (w.getD (i - 15) 0) 7 ^^^ rotr32 (w.getD (i - 15) 0) 18 ^^^
        (w.getD (i - 15) 0 >>> 3)
      let s1 := rotr32 (w.getD (i - 2) 0) 17 ^^^ rotr32 (w.getD (i - 2) 0) 19 ^^^
        (w.getD (i - 2) 0 >>> 10)
      w ++ [(w.getD (i - 16) 0 + s0 + w.getD (i - 7) 0 + s1) % w32])
    (bytesToWordsBE blk)

def sha256Round (w : List Nat) (st : Sha256State) (i : Nat) : Sha256State :=
  let S1 := rotr32 st.e 6 ^^^ rotr32 st.e 11 ^^^ rotr32 st.e 25
  let ch := (st.e &&& st.f) ^^^ (not32 st.e &&& st.g)
  let t1 := (st.h + S1 + ch + sha256K.getD i 0 + w.getD i 0) % w32
  let S0 := rotr32 st.a 2 ^^^ rotr32 st.a 13 ^^^ rotr32 st.a 22
  let mj := (st.a &&& st.b) ^^^ (st.a &&& st.c) ^^^ (st.b &&& st.c)
  let t2 := (S0 + mj) % w32
  ⟨(t1 + t2) % w32, st.a, st.b, st.c, (st.d + t1) % w32, st.e, st.f, st.g⟩

def sha256Compress (h0 : Sha256State) (blk : List Nat) : Sha256State :=
  let w := sha256Schedule blk
  let st := (List.range 64).foldl (sha256Round w) h0
  ⟨(h0.a + st.a) % w32, (h0.b + st.b) % w32, (h0.c + st.c) % w32,
   (h0.d + st.d) % w32, (h0.e + st.e) % w32, (h0.f + st.f) % w32,
   (h0.g + st.g) % w32, (h0.h + st.h) % w32⟩

/-- SHA-256 digest bytes of a byte list. -/
def sha256Digest (msg : List Nat) : List Nat :=
  let st := (chunks64 (shaPad msg)).foldl sha256Compress sha256H0
  ([st.a, st.b, st.c, st.d, st.e, st.f, st.g, st.h].map (natToBytesBE · 4)).flatten

structure Sha1State where
  a : Nat
  b : Nat
  c : Nat
  d : Nat
  e : Nat

def sha1H0 : Sha1State :=
  ⟨1732584193, 4023233417, 2562383102, 271733878, 3285377520⟩

def sha1Schedule (blk : List Nat) : List Nat :=
  (List.range 64).foldl
    (fun w j =>
      let i := j + 16
      w ++ [rotl32 (w.getD (i - 3) 0 ^^^ w.getD (i - 8) 0 ^^^
        w.getD (i - 14) 0 ^^^ w.getD (i - 16) 0) 1])
    (bytesToWordsBE blk)

def sha1FK (i b c d : Nat) : Nat × Nat :=
  if i < 20 then ((b &&& c) ||| (not32 b &&& d), 1518500249)
  else if i < 40 then (b ^^^ c ^^^ d, 1859775393)
  else if i < 60 then ((b &&& c) ||| (b &&& d) ||| (c &&& d), 2400959708)
  else (b ^^^ c ^^^ d, 3395469782)

def sha1Round (w : List Nat) (st : Sha1State) (i : Nat) : Sha1State :=
  let fk := sha1FK i st.b st.c st.d
  let t := (rotl32 st.a 5 + fk.1 + st.e + fk.2 + w.getD i 0) % w32
  ⟨t, st.a, rotl32 st.b 30, st.c, st.d⟩

def sha1Compress (h0 : Sha1State) (blk : List Nat) : Sha1State :=
  let w := sha1Schedule blk
  let st := (List.range 80).foldl (sha1Round w) h0
  ⟨(h0.a + st.a) % w32, (h0.b + st.b) % w32, (h0.c + st.c) % w32,
   (h0.d + st.d) % w32, (h0.e + st.e) % w32⟩

/-- SHA-1 digest bytes of a byte list. -/
def sha1Digest (msg : List Nat) : List Nat :=
  let st := (chunks64 (shaPad msg)).foldl sha1Compress sha1H0
  ([st.a, st.b, st.c, st.d, st.e].map (natToBytesBE · 4)).flatten

def hexDigit (n : Nat) : Char :=
  if n < 10 then Char.ofNat (48 + n) else Char.ofNat (87 + n)

def bytesToHex (bs : List Nat) : String :=
  ⟨(bs.map (fun b => [hexDigit (b / 16), hexDigit (b % 16)])).flatten⟩

/-- UTF-8 encoding of one code point. -/
def charUtf8 (c : Char) : List Nat :=
  let n := c.toNat
  if n < 128 then [n]
  else if n < 2048 then [192 ||| (n >>> 6), 128 ||| (n &&& 63)]
  else if n < 65536 then
    [224 ||| (n >>> 12), 128 ||| ((n >>> 6) &&& 63), 128 ||| (n &&& 63)]
  else
    [240 ||| (n >>> 18), 128 ||| ((n >>> 12) &&& 63),
     128 ||| ((n >>> 6) &&& 63), 128 ||| (n &&& 63)]

/-- UTF-8 bytes of a string (Python `url.encode("utf-8")`). -/
def utf8Bytes (s : String) : List Nat := (s.data.map charUtf8).flatten

/-- Embedding of `url_key` (boe_downloader_http.py lines 210-212):
`hashlib.sha256(url.encode("utf-8")).hexdigest()`. -/
def url_key (url : String) : String := bytesToHex (sha256Digest (utf8Bytes url))

/-- Embedding of `paths_for_url` (boe_downloader_http.py lines 221-226);
`os.path.join` with the POSIX separator. -/
def paths_for_url (store_dir url : String) : String × String :=
  let k := url_key url
  (store_dir ++ "/data/" ++ k ++ ".bin", store_dir ++ "/meta/" ++ k ++ ".json")

/-- Modelled from the spec: the claimed addressing where the cache slot key is
the SHA-1 hex digest of the UTF-8 bytes of the URL. -/
def specSha1Paths (store_dir url : String) : String × String :=
  let k := bytesToHex (sha1Digest (utf8Bytes url))
  (store_dir ++ "/data/" ++ k ++ ".bin", store_dir ++ "/meta/" ++ k ++ ".json")

lemma sha256_abc_vector :
    bytesToHex (sha256Digest (utf8Bytes "abc")) =
      "ba7816bf8f01cfea414140de5dae2223b00361a396177a9cb410ff61f20015ad" := by
  decide

lemma sha1_abc_vector :
    bytesToHex (sha1Digest (utf8Bytes "abc")) =
      "a9993e364706816aba3e25717850c26c9cd0d89d" := by
  decide

/-- C4 counterexample: on the concrete URL "a" the code's cache paths use the
SHA-256 digest of the URL, not the SHA-1 digest the claim states, so
`paths_for(url)` differs from the claimed `data/<sha1(url)>.bin` slot. -/
theorem paths_for_url_not_sha1 :
    paths_for_url "store" "a" ≠ specSha1Paths "store" "a" ∧
    url_key "a" =
      "ca978112ca1bbdcafac231b39a23dc4da786eff8147c4e72b9807785afee48bb" ∧
    bytesToHex (sha1Digest (utf8Bytes "a")) =
      "86f7e437faa5a7fce15d1ddcb9eaeaea377667b8" := by
  refine ⟨by decide, by decide, by decide⟩

/-- C4 amended: for every URL the store addresses the cache slot by the
SHA-256 (not SHA-1) hex digest of the UTF-8 bytes of the URL:
`paths_for(url)` returns `data/<sha256(url)>.bin` and `meta/<sha256(url)>.json`. -/
theorem paths_for_url_sha256_addressing :
    ∀ store_dir url : String,
      paths_for_url store_dir url =
        (store_dir ++ "/data/" ++ bytesToHex (sha256Digest (utf8Bytes url)) ++ ".bin",
         store_dir ++ "/meta/" ++ bytesToHex (sha256Digest (utf8Bytes url)) ++ ".json") := by
  intro store_dir url
  rfl

/-! ## Dashboard state (boe_downloader_web.py, WebState.update_item)

Only the counters touched by `update_item` are modelled; `last_update_local`
is a wall-clock string and is omitted. -/

/-- Python `in` on strings: contiguous substring. -/
def strContains (s pat : String) : Bool := decide (pat.data <:+: s.data)

/-- Python `str.endswith`. -/
def strEndsWith (s pat : String) : Bool := decide (pat.data <:+ s.data)

structure WebCounters where
  done : Nat := 0
  ok : Nat := 0
  bytes : Nat := 0
  xml_ok : Nat := 0
  pdf_ok : Nat := 0
  skipped_304 : Nat := 0
  errors : Nat := 0
  http_2xx : Nat := 0
  http_3xx : Nat := 0
  http_4xx : Nat := 0
  http_5xx : Nat := 0
  http_429 : Nat := 0
  timeouts : Nat := 0
  client_errors : Nat := 0
  other_errors : Nat := 0
  deriving Repr, DecidableEq

/-- The first copy's 2xx format test (boe_downloader_web.py lines 635-644). -/
def pdfTestFirst (url format_hint : String) : Bool :=
  strContains format_hint.toLower "application/pdf" ||
    strEndsWith url.toLower ".pdf" || strContains url.toLower "/pdfs/"

/-- The second copy's 2xx format test (boe_downloader_web.py line 678). -/
def pdfTestSecond (url format_hint : String) : Bool :=
  strContains format_hint.toLower "pdf" || strContains url.toLower "/pdfs/"

/-- One status-classification copy, parametrised by its 2xx format test.
`continuation` is what runs when control falls off the end of the copy
(only possible for `status ≥ 500` or an integer status outside every
handled range). -/
def classifyCopy (pdfTest : String → String → Bool)
    (s : WebCounters) (status : Option Int) (url format_hint : String)
    (continuation : WebCounters → WebCounters) : WebCounters :=
  match status with
  | none => { s with other_errors := s.other_errors + 1, errors := s.errors + 1 }
  | some st =>
      if st = 304 then
        { s with skipped_304 := s.skipped_304 + 1, http_3xx := s.http_3xx + 1 }
      else if 200 ≤ st ∧ st < 300 then
        let s := { s with ok := s.ok + 1, http_2xx := s.http_2xx + 1 }
        if pdfTest url format_hint then { s with pdf_ok := s.pdf_ok + 1 }
        else { s with xml_ok := s.xml_ok + 1 }
      else if 300 ≤ st ∧ st < 400 then { s with http_3xx := s.http_3xx + 1 }
      else
        let s := if st = 429 then { s with http_429 := s.http_429 + 1 } else s
        if 400 ≤ st ∧ st < 500 then
          { s with http_4xx := s.http_4xx + 1,
                   client_errors := s.client_errors + 1, errors := s.errors + 1 }
        else
          let s :=
            if 500 ≤ st then
              { s with http_5xx := s.http_5xx + 1,
                       other_errors := s.other_errors + 1, errors := s.errors + 1 }
            else s
          continuation s

/-- Embedding of `WebState.update_item` (boe_downloader_web.py lines
602-700): the preamble, then the two textually duplicated classification
copies, the second reached only when the first falls through. -/
def WebCounters.update_item (s : WebCounters) (status : Option Int)
    (nbytes : Int) (url : String) (timeout : Bool)
    (format_hint : String) : WebCounters :=
  let s := { s with done := s.done + 1, bytes := s.bytes + (max 0 nbytes).toNat }
  let s :=
    if timeout then
      { s with timeouts := s.timeouts + 1, errors := s.errors + 1 }
    else s
  classifyCopy pdfTestFirst s status url format_hint
    (fun s => classifyCopy pdfTestSecond s status url format_hint id)

/-- Reference behaviour the claim describes: `update_item` with the second
classification copy removed (dead-code elimination). -/
def WebCounters.update_item_single (s : WebCounters) (status : Option Int)
    (nbytes : Int) (url : String) (timeout : Bool)
    (format_hint : String) : WebCounters :=
  let s := { s with done := s.done + 1, bytes := s.bytes + (max 0 nbytes).toNat }
  let s :=
    if timeout then
      { s with timeouts := s.timeouts + 1, errors := s.errors + 1 }
    else s
  classifyCopy pdfTestFirst s status url format_hint id

/-- C3 counterexample: for `status = 500` the first copy's `status ≥ 500`
branch does not return, so the second copy IS reached and double-counts: from
a fresh state one `update_item` call yields `http_5xx = 2`, `other_errors = 2`
and `errors = 2`, differing from the single-copy behaviour the claim
asserts. -/
theorem update_item_second_copy_reached :
    (WebCounters.update_item {} (some 500) 0 "u" false "x").http_5xx = 2 ∧
    (WebCounters.update_item {} (some 500) 0 "u" false "x").other_errors = 2 ∧
    (WebCounters.update_item {} (some 500) 0 "u" false "x").errors = 2 ∧
    WebCounters.update_item {} (some 500) 0 "u" false "x" ≠
      WebCounters.update_item_single {} (some 500) 0 "u" false "x" := by
  refine ⟨by decide, by decide, by decide, by decide⟩

lemma classifyCopy_returns (p : String → String → Bool) (s : WebCounters)
    (st : Int) (url hint : String) (k : WebCounters → WebCounters)
    (h : st = 304 ∨ (200 ≤ st ∧ st < 300) ∨ (300 ≤ st ∧ st < 400) ∨
      (400 ≤ st ∧ st < 500)) :
    classifyCopy p s (some st) url hint k = classifyCopy p s (some st) url hint id := by
  simp only [classifyCopy]
  split_ifs <;> first | rfl | omega

lemma classifyCopy_cont (p : String → String → Bool) (s : WebCounters)
    (st : Int) (url hint : String) (k : WebCounters → WebCounters)
    (h : st < 200 ∨ 500 ≤ st) :
    classifyCopy p s (some st) url hint k =
      k (classifyCopy p s (some st) url hint id) := by
  have h304 : ¬ st = 304 := by omega
  have h2 : ¬(200 ≤ st ∧ st < 300) := by omega
  have h3 : ¬(300 ≤ st ∧ st < 400) := by omega
  have h429 : ¬ st = 429 := by omega
  have h4 : ¬(400 ≤ st ∧ st < 500) := by omega
  simp only [classifyCopy, h304, h2, h3, h429, h4, if_neg, if_false,
    ite_false, id]

lemma classifyCopy_id_of_5xx (p : String → String → Bool) (s : WebCounters)
    (st : Int) (url hint : String) (h : 500 ≤ st) :
    classifyCopy p s (some st) url hint id =
      { s with http_5xx := s.http_5xx + 1,
               other_errors := s.other_errors + 1, errors := s.errors + 1 } := by
  have h304 : ¬ st = 304 := by omega
  have h2 : ¬(200 ≤ st ∧ st < 300) := by omega
  have h3 : ¬(300 ≤ st ∧ st < 400) := by omega
  have h429 : ¬ st = 429 := by omega
  have h4 : ¬(400 ≤ st ∧ st < 500) := by omega
  simp [classifyCopy, h304, h2, h3, h429, h4, h]

lemma classifyCopy_id_of_low (p : String → String → Bool) (s : WebCounters)
    (st : Int) (url hint : String) (h : st < 200) :
    classifyCopy p s (some st) url hint id = s := by
  have h304 : ¬ st = 304 := by omega
  have h2 : ¬(200 ≤ st ∧ st < 300) := by omega
  have h3 : ¬(300 ≤ st ∧ st < 400) := by omega
  have h429 : ¬ st = 429 := by omega
  have h4 : ¬(400 ≤ st ∧ st < 500) := by omega
  have h5 : ¬ 500 ≤ st := by omega
  simp [classifyCopy, h304, h2, h3, h429, h4, h5]

/-- C3 amended: the second status-classification copy is reachable exactly
when `status ≥ 500`; there it increments `http_5xx`, `other_errors` and
`errors` once more (double-counting 5xx), and for every other input
combination `update_item` coincides with the single-copy behaviour (the
second copy increments no counter). -/
theorem update_item_second_copy_only_5xx :
    ∀ (s : WebCounters) (status : Option Int) (nbytes : Int)
      (url : String) (timeout : Bool) (format_hint : String),
      WebCounters.update_item s status nbytes url timeout format_hint =
        (match status with
         | some st =>
             if 500 ≤ st then
               let t := WebCounters.update_item_single s status nbytes url
                 timeout format_hint
               { t with http_5xx := t.http_5xx + 1,
                        other_errors := t.other_errors + 1,
                        errors := t.errors + 1 }
             else WebCounters.update_item_single s status nbytes url
               timeout format_hint
         | none =>
             WebCounters.update_item_single s status nbytes url timeout
               format_hint) := by
  intro s status nbytes url timeout format_hint
  cases status with
  | none => rfl
  | some st =>
      by_cases hret : st = 304 ∨ (200 ≤ st ∧ st < 300) ∨
        (300 ≤ st ∧ st < 400) ∨ (400 ≤ st ∧ st < 500)
      · have h5 : ¬ 500 ≤ st := by omega
        simp only [WebCounters.update_item, WebCounters.update_item_single, h5,
          if_false, ite_false]
        rw [classifyCopy_returns _ _ _ _ _ _ hret]
      · have hfall : st < 200 ∨ 500 ≤ st := by omega
        simp only [WebCounters.update_item, WebCounters.update_item_single]
        rw [classifyCopy_cont _ _ _ _ _ _ hfall]
        rcases hfall with hlow | h5
        · have h5 : ¬ 500 ≤ st := by omega
          simp only [h5, if_false, ite_false]
          rw [classifyCopy_id_of_low _ _ _ _ _ hlow,
            classifyCopy_id_of_low _ _ _ _ _ hlow]
        · simp only [h5, if_true, ite_true]
          rw [classifyCopy_id_of_5xx _ _ _ _ _ h5,
            classifyCopy_id_of_5xx _ _ _ _ _ h5]

/-! ## Sumario URL extraction (boe_downloader_parsing.py)

`extract_sumario_item_urls` walks the parsed element tree (`root.iter()` is a
preorder traversal), collecting stripped nonempty texts of elements whose tag's
local name (the part after the last brace, `tag.split` on the namespace
delimiter) is `url_xml`, and deduplicates preserving first occurrence; when
`ET.fromstring` raises, a regex fallback scans the decoded text.  The external
XML parser itself is not embedded: the `Option XmlTree` argument models the
outcome of the `try` block, and the `String` argument models
`xml_bytes.decode` for the fallback. -/

/-- Python `str.strip` over the character list (ASCII whitespace); Lean's
`String.trim` is built on byte-position recursion that the kernel cannot
evaluate, so the strip is spelled out structurally. -/
def pyStrip (s : String) : String :=
  String.mk (((s.data.dropWhile Char.isWhitespace).reverse.dropWhile
    Char.isWhitespace).reverse)

mutual

/-- An XML element: full tag (possibly namespace-qualified), text before the
first child (`el.text or ""`), and children.  The forest type keeps the
mutual recursion structural so that the kernel can evaluate it. -/
inductive XmlTree where
  | node (tag : String) (text : String) (children : XmlForest)

inductive XmlForest where
  | nil
  | cons (t : XmlTree) (f : XmlForest)

end

/-- Python `tag.split` on the namespace delimiter, last component
(`el.tag.split(...)[-1]` in the source): everything after the last closing
brace, the whole tag when none is present. -/
def localName (tag : String) : String :=
  String.mk ((tag.data.reverse.takeWhile (fun c => c ≠ '\x7d')).reverse)

mutual

/-- Texts collected by the `root.iter()` loop, in document (preorder) order. -/
def urlXmlTexts : XmlTree → List String
  | .node tag text children =>
      (if localName tag = "url_xml" ∧ pyStrip text ≠ "" then [pyStrip text] else []) ++
        urlXmlTextsForest children

def urlXmlTextsForest : XmlForest → List String
  | .nil => []
  | .cons c cs => urlXmlTexts c ++ urlXmlTextsForest cs

end

def uniquePreserveOrderAux (seen : List String) : List String → List String
  | [] => []
  | v :: vs =>
      if v ∈ seen then uniquePreserveOrderAux seen vs
      else v :: uniquePreserveOrderAux (v :: seen) vs

/-- Embedding of `_unique_preserve_order` (boe_downloader_parsing.py lines
19-27); the `seen` set becomes an accumulator list. -/
def uniquePreserveOrder (l : List String) : List String :=
  uniquePreserveOrderAux [] l

/-- Split a character list at the first occurrence of `pat`, returning the
part before and the part after the pattern. -/
def splitAtPattern (pat : List Char) : List Char → Option (List Char × List Char)
  | [] => if pat.isEmpty then some ([], []) else none
  | c :: rest =>
      if pat.isPrefixOf (c :: rest) then some ([], (c :: rest).drop pat.length)
      else
        match splitAtPattern pat rest with
        | some (pre, post) => some (c :: pre, post)
        | none => none

/-- Non-greedy, non-overlapping scan for open-tag/close-tag captures: the
semantics of `re.findall` on the pattern with a lazy group and DOTALL. -/
def regexFindAll (openTag closeTag : List Char) : Nat → List Char → List (List Char)
  | 0, _ => []
  | fuel + 1, s =>
      match splitAtPattern openTag s with
      | none => []
      | some (_, afterOpen) =>
          match splitAtPattern closeTag afterOpen with
          | none => []
          | some (captured, afterClose) =>
              captured :: regexFindAll openTag closeTag fuel afterClose

/-- The regex fallback of `extract_sumario_item_urls` (lines 82-85). -/
def extractFallback (text : String) : List String :=
  let ms := regexFindAll "<url_xml>".data "</url_xml>".data
    (text.data.length + 1) text.data
  uniquePreserveOrder ((ms.map (fun cs => pyStrip (String.mk cs))).filter (· ≠ ""))

/-- Embedding of `extract_sumario_item_urls` (boe_downloader_parsing.py lines
68-85); `parsed` is the result of the guarded `ET.fromstring`. -/
def extract_sumario_item_urls (parsed : Option XmlTree) (decoded : String) :
    List String :=
  match parsed with
  | some root => uniquePreserveOrder (urlXmlTexts root)
  | none => extractFallback decoded

lemma uniquePreserveOrderAux_sublist (seen : List String) (l : List String) :
    (uniquePreserveOrderAux seen l).Sublist l := by
  induction l generalizing seen with
  | nil => simp [uniquePreserveOrderAux]
  | cons v vs ih =>
      simp only [uniquePreserveOrderAux]
      split_ifs
      · exact (ih seen).cons v
      · exact (ih (v :: seen)).cons₂ v

lemma uniquePreserveOrderAux_mem (seen : List String) (l : List String)
    (v : String) :
    v ∈ uniquePreserveOrderAux seen l ↔ v ∈ l ∧ v ∉ seen := by
  induction l generalizing seen with
  | nil => simp [uniquePreserveOrderAux]
  | cons a vs ih =>
      simp only [uniquePreserveOrderAux]
      split_ifs with ha
      · rw [ih seen]
        simp only [List.mem_cons]
        constructor
        · rintro ⟨hv, hns⟩
          exact ⟨Or.inr hv, hns⟩
        · rintro ⟨hv | hv, hns⟩
          · exact absurd (hv ▸ ha) hns
          · exact ⟨hv, hns⟩
      · simp only [List.mem_cons, ih (a :: seen)]
        constructor
        · rintro (rfl | ⟨hv, hns⟩)
          · exact ⟨Or.inl rfl, ha⟩
          · exact ⟨Or.inr hv, fun hs => hns (Or.inr hs)⟩
        · rintro ⟨rfl | hv, hns⟩
          · exact Or.inl rfl
          · by_cases hva : v = a
            · exact Or.inl hva
            · exact Or.inr ⟨hv, fun h => h.elim hva hns⟩

lemma uniquePreserveOrderAux_nodup (seen : List String) (l : List String) :
    (uniquePreserveOrderAux seen l).Nodup := by
  induction l generalizing seen with
  | nil => simp [uniquePreserveOrderAux]
  | cons v vs ih =>
      simp only [uniquePreserveOrderAux]
      split_ifs with hv
      · exact ih seen
      · refine List.nodup_cons.mpr ⟨?_, ih (v :: seen)⟩
        intro hmem
        exact ((uniquePreserveOrderAux_mem (v :: seen) vs v).mp hmem).2
          (List.mem_cons_self v seen)

/-- C9: extraction collects `url_xml` texts by local name (namespace
insensitive) in document order with duplicates removed keeping the first
occurrence (`uniquePreserveOrder` returns an order-preserving duplicate-free
sublist with the same members), falls back to the regex scan when structured
parsing fails, and on the a, b, a example yields exactly the first
occurrences a then b — both through the tree path (with a namespaced second
entry) and through the regex fallback. -/
theorem extract_sumario_item_urls_spec :
    (∀ l : List String,
        (uniquePreserveOrder l).Sublist l ∧
        (uniquePreserveOrder l).Nodup ∧
        (∀ v, v ∈ uniquePreserveOrder l ↔ v ∈ l)) ∧
    (∀ root decoded,
        extract_sumario_item_urls (some root) decoded =
          uniquePreserveOrder (urlXmlTexts root)) ∧
    (∀ decoded,
        extract_sumario_item_urls none decoded = extractFallback decoded) ∧
    extract_sumario_item_urls
        (some (XmlTree.node "documento" ""
          (XmlForest.cons (XmlTree.node "url_xml" "https://host/a" XmlForest.nil)
            (XmlForest.cons (XmlTree.node "\x7bns\x7durl_xml" " https://host/b "
              XmlForest.nil)
              (XmlForest.cons (XmlTree.node "item" ""
                (XmlForest.cons
                  (XmlTree.node "url_xml" "https://host/a" XmlForest.nil)
                  XmlForest.nil))
                XmlForest.nil))))) ""
      = ["https://host/a", "https://host/b"] ∧
    extract_sumario_item_urls none
        ("<url_xml>https://host/a</url_xml><url_xml>https://host/b</url_xml>" ++
          "<url_xml>https://host/a</url_xml>")
      = ["https://host/a", "https://host/b"] := by
  refine ⟨?_, fun root decoded => rfl, fun decoded => rfl, by decide, by decide⟩
  intro l
  refine ⟨uniquePreserveOrderAux_sublist [] l, uniquePreserveOrderAux_nodup [] l, ?_⟩
  intro v
  rw [uniquePreserveOrder, uniquePreserveOrderAux_mem]
  simp

/-! ## Adaptive limiter (boe_downloader_http.py, class AdaptiveLimiter)

The limiter is a resizable token pool: an `asyncio.Semaphore` of capacity
`max_limit`, a `reserved` count of internally held tokens, and a `target`.
`sem` is the semaphore's free-token count, `inUse` the tokens held by workers
(the pipeline releases only tokens it acquired, so `release` carries the
`0 < inUse` usage guard).  `set_target` is modelled as one atomic transition
enabled when `_set_reserved` can complete without blocking, which matches the
claim's quantification over instants outside a `set_target` call. -/

structure LimiterState where
  maxLimit : Nat
  sem : Nat
  reserved : Nat
  target : Nat
  inUse : Nat
  deriving Repr, DecidableEq

/-- Clamp of `set_target`: `max(1, min(self.max_limit, int(target)))`. -/
def clampTarget (maxLimit : Nat) (n : Int) : Nat :=
  (max 1 (min (maxLimit : Int) n)).toNat

/-- Clamp of `_set_reserved`: `max(0, min(self.max_limit - 1, desired))`
(the `max 0` is inherent to `Nat`). -/
def desiredReserved (s : LimiterState) (n : Int) : Nat :=
  min (s.maxLimit - 1) (s.maxLimit - clampTarget s.maxLimit n)

/-- State after a completed `set_target(n)` call: the target is clamped, the
reservation adjusted, and the semaphore's free count moves accordingly
(acquiring reserved tokens on shrink, releasing them on growth). -/
def setTargetState (s : LimiterState) (n : Int) : LimiterState :=
  let t := clampTarget s.maxLimit n
  let d := desiredReserved s n
  { s with target := t, reserved := d, sem := s.sem + s.reserved - d }

/-- Transitions of the limiter: worker `acquire` (when a token is free),
worker `release` (of a held token), and an atomic `set_target`, enabled when
the needed reservations are available. -/
inductive LStep : LimiterState → LimiterState → Prop
  | acquire (s : LimiterState) (h : 0 < s.sem) :
      LStep s { s with sem := s.sem - 1, inUse := s.inUse + 1 }
  | release (s : LimiterState) (h : 0 < s.inUse) :
      LStep s { s with sem := s.sem + 1, inUse := s.inUse - 1 }
  | setTarget (s : LimiterState) (n : Int)
      (h : desiredReserved s n ≤ s.sem + s.reserved) :
      LStep s (setTargetState s n)

/-- `AdaptiveLimiter.__init__` followed by `initialize()` (which applies
`set_target` to the clamped initial value). -/
def initLimiter (max_limit initial : Int) : LimiterState :=
  let ml := (max 1 max_limit).toNat
  let t0 := clampTarget ml initial
  setTargetState { maxLimit := ml, sem := ml, reserved := 0, target := t0, inUse := 0 }
    (t0 : Int)

/-- The limiter invariant of §4.C. -/
def LimiterInv (s : LimiterState) : Prop :=
  1 ≤ s.maxLimit ∧ 1 ≤ s.target ∧ s.target ≤ s.maxLimit ∧
    s.reserved = s.maxLimit - s.target ∧
    s.sem + s.inUse + s.reserved = s.maxLimit

lemma clampTarget_bounds (ml : Nat) (n : Int) (h : 1 ≤ ml) :
    1 ≤ clampTarget ml n ∧ clampTarget ml n ≤ ml := by
  unfold clampTarget
  omega

lemma limiterInv_init (max_limit initial : Int) :
    LimiterInv (initLimiter max_limit initial) := by
  simp only [initLimiter, setTargetState, desiredReserved, clampTarget,
    LimiterInv]
  omega

lemma limiterInv_step (s s2 : LimiterState) (hinv : LimiterInv s)
    (hstep : LStep s s2) : LimiterInv s2 := by
  obtain ⟨h1, h2, h3, h4, h5⟩ := hinv
  cases hstep with
  | acquire h => exact ⟨h1, h2, h3, h4, by simp; omega⟩
  | release h => exact ⟨h1, h2, h3, h4, by simp; omega⟩
  | setTarget n h =>
      obtain ⟨hc1, hc2⟩ := clampTarget_bounds s.maxLimit n h1
      simp only [setTargetState, desiredReserved] at *
      refine ⟨h1, hc1, hc2, ?_, ?_⟩ <;> simp <;> omega

/-- C7: in every state reachable (by worker acquires/releases and atomic
`set_target` calls) from an initialised limiter, `in_use + free + reserved =
max_limit` and `free + in_use = target` (so `in_use` never exceeds the current
target), and `set_target(n)` clamps `n` into `[1, max_limit]` while keeping
`reserved = max_limit − target` — shrinking acquires the difference as
reserved tokens without touching `in_use` (holders are not interrupted),
growing releases reserved tokens. -/
theorem adaptive_limiter_invariant :
    ∀ (max_limit initial : Int) (s : LimiterState),
      Relation.ReflTransGen LStep (initLimiter max_limit initial) s →
      (s.inUse + s.sem + s.reserved = s.maxLimit ∧
       s.sem + s.inUse = s.target ∧
       s.inUse ≤ s.target ∧
       1 ≤ s.target ∧ s.target ≤ s.maxLimit) ∧
      (∀ n : Int,
        (setTargetState s n).target = (max 1 (min (s.maxLimit : Int) n)).toNat ∧
        (setTargetState s n).reserved =
          s.maxLimit - (setTargetState s n).target ∧
        (setTargetState s n).inUse = s.inUse) := by
  intro max_limit initial s hreach
  have hinv : LimiterInv s := by
    induction hreach with
    | refl => exact limiterInv_init max_limit initial
    | tail _ hstep ih => exact limiterInv_step _ _ ih hstep
  obtain ⟨h1, h2, h3, h4, h5⟩ := hinv
  constructor
  · refine ⟨by omega, by omega, by omega, h2, h3⟩
  · intro n
    obtain ⟨hc1, hc2⟩ := clampTarget_bounds s.maxLimit n h1
    unfold setTargetState desiredReserved
    refine ⟨rfl, by simp; unfold clampTarget at *; omega, rfl⟩

/-- A concrete limiter state: `max_limit = 4`, `initial = 2`, after one
worker acquire. -/
def limiterWitnessState : LimiterState := ⟨4, 1, 2, 2, 1⟩

/-- Closed instance of the limiter invariant at `limiterWitnessState`,
reached from `initLimiter 4 2` by a single acquire step. -/
theorem adaptive_limiter_invariant_witness :
    (limiterWitnessState.inUse + limiterWitnessState.sem +
        limiterWitnessState.reserved = limiterWitnessState.maxLimit ∧
     limiterWitnessState.sem + limiterWitnessState.inUse =
        limiterWitnessState.target ∧
     limiterWitnessState.inUse ≤ limiterWitnessState.target ∧
     1 ≤ limiterWitnessState.target ∧
     limiterWitnessState.target ≤ limiterWitnessState.maxLimit) ∧
    (∀ n : Int,
      (setTargetState limiterWitnessState n).target =
        (max 1 (min (limiterWitnessState.maxLimit : Int) n)).toNat ∧
      (setTargetState limiterWitnessState n).reserved =
        limiterWitnessState.maxLimit -
          (setTargetState limiterWitnessState n).target ∧
      (setTargetState limiterWitnessState n).inUse =
        limiterWitnessState.inUse) := by
  have hstep : LStep (initLimiter 4 2) limiterWitnessState := by
    have h0 : initLimiter 4 2 =
        { maxLimit := 4, sem := 2, reserved := 2, target := 2, inUse := 0 } := by
      decide
    rw [h0]
    exact LStep.acquire _ (by decide)
  exact adaptive_limiter_invariant 4 2 _ (Relation.ReflTransGen.single hstep)

/-! ## Concurrency tuner (boe_downloader_http.py, autotune_concurrency)

One loop iteration (a "tick") is embedded as a pure function of the window
snapshot, the CPU sample, the held baseline and the current target.  The CPU
and latency samples are floats whose comparisons are order-faithful when the
values are carried as exact rationals.  The only arithmetic the tick performs
on floats is `int(cur * 0.7)`: `0.7` is the IEEE-754 double
`6305039478318694 / 2^53`, and the multiplication by the integer `cur` rounds
the exact product to 53 significant bits (round-to-nearest, ties-to-even)
before truncation — `intMul07` reproduces this exactly. -/

/-- Floor of base-2 logarithm by fuel (kernel-evaluable; `natLog2 n` uses
fuel `n`, always sufficient). -/
def natLog2Aux : Nat → Nat → Nat
  | 0, _ => 0
  | fuel + 1, n => if 2 ≤ n then natLog2Aux fuel (n / 2) + 1 else 0

def natLog2 (n : Nat) : Nat := natLog2Aux n n

/-- The CPython value of `int(n * 0.7)` for a nonnegative integer `n`: the
exact product `n * (6305039478318694 / 2^53)` is rounded to the nearest
double (ties to even) and truncated toward zero. -/
def intMul07 (n : Nat) : Nat :=
  let p := n * 6305039478318694
  let b := natLog2 p
  if b ≤ 52 then p / 9007199254740992
  else
    let shift := b - 52
    let q := p / 2 ^ shift
    let r := p % 2 ^ shift
    let half := 2 ^ (shift - 1)
    let q2 := if half < r ∨ (r = half ∧ q % 2 = 1) then q + 1 else q
    q2 * 2 ^ shift / 9007199254740992

/-- A window snapshot as returned by `RunStats.snapshot_window`. -/
structure WindowSnap where
  ok : Nat
  err : Nat
  http429 : Nat
  http5xx : Nat
  timeouts : Nat
  avg_latency_s : ℚ
  rps : ℚ
  deriving Repr, DecidableEq

/-- Baseline update at the top of a tick (captured once on the first window
with nonzero rps and positive average latency, then held). -/
def tickBaseline (baseline : Option ℚ) (snap : WindowSnap) : Option ℚ :=
  if 0 < snap.rps ∧ baseline = none ∧ 0 < snap.avg_latency_s then
    some snap.avg_latency_s
  else baseline

/-- The congestion test of a tick, evaluated with the already-updated
baseline, mirroring lines 296-303. -/
def tickCongested (snap : WindowSnap) (cpuVal : Option ℚ) (cpu_high : ℚ)
    (bl : Option ℚ) : Bool :=
  decide ((0 < snap.http429 ∨ 0 < snap.http5xx ∨ 0 < snap.timeouts) ∨
    (∃ c, cpuVal = some c ∧ cpu_high ≤ c) ∨
    (∃ b, bl = some b ∧ 0 < snap.avg_latency_s ∧ 0 < snap.err ∧
      2 * b ≤ snap.avg_latency_s))

/-- `set_target`'s clamp on a nonnegative request. -/
def setTargetClampNat (max_limit x : Nat) : Nat := max 1 (min max_limit x)

/-- One tick of `autotune_concurrency` (lines 288-316): returns the new
limiter target and the new held baseline. -/
def autotuneTick (snap : WindowSnap) (cpuVal : Option ℚ) (bl : Option ℚ)
    (cur max_limit : Nat) (cpu_high cpu_low : ℚ) : Nat × Option ℚ :=
  let bl2 := tickBaseline bl snap
  if tickCongested snap cpuVal cpu_high bl2 then
    (setTargetClampNat max_limit (max 1 (intMul07 cur)), bl2)
  else
    match cpuVal with
    | some c =>
        if cpu_low < c then (setTargetClampNat max_limit cur, bl2)
        else if cur < max_limit then (setTargetClampNat max_limit (cur + 1), bl2)
        else (cur, bl2)
    | none =>
        if cur < max_limit then (setTargetClampNat max_limit (cur + 1), bl2)
        else (cur, bl2)

/-- C8 counterexample: at target 90 under congestion (`win_429 = 3`) the code
computes `int(90 * 0.7) = 62` — the double product `90 * 0.7` rounds to
`62.99999999999999` — while the claim's `max(1, floor(0.7 × 90))` is 63. -/
theorem autotune_floor_counterexample :
    (autotuneTick ⟨0, 0, 3, 0, 0, 0, 0⟩ none none 90 200 85 60).1 = 62 ∧
    max 1 (7 * 90 / 10) = 63 ∧
    (autotuneTick ⟨0, 0, 3, 0, 0, 0, 0⟩ none none 90 200 85 60).1 ≠
      max 1 (7 * 90 / 10) := by
  refine ⟨by decide, by decide, by decide⟩

/-- C8 amended: on a congested tick the new target is
`max(1, int(cur * 0.7))` under IEEE-754 double arithmetic (clamped by
`set_target`), which agrees with `max(1, floor(0.7 × cur))` for every
`cur ≤ 89` but not at `cur = 90`; on an uncongested tick with a CPU sample at
most `cpu_low` (or unavailable) and `cur < max_limit` the target becomes
`cur + 1`, otherwise it is unchanged; congestion is as the claim lists it
(win_429 > 0, win_5xx > 0, win_timeouts > 0, CPU ≥ cpu_high, or latency ≥
2 × the once-captured positive baseline with win_err > 0); the 10 → 7 → 8
example holds. -/
theorem autotune_tick_spec :
    ∀ (snap : WindowSnap) (cpuVal : Option ℚ) (bl : Option ℚ)
      (cur max_limit : Nat) (cpu_high cpu_low : ℚ),
      1 ≤ cur → cur ≤ max_limit →
      (tickCongested snap cpuVal cpu_high (tickBaseline bl snap) = true →
        (autotuneTick snap cpuVal bl cur max_limit cpu_high cpu_low).1 =
          max 1 (min max_limit (max 1 (intMul07 cur))) ∧
        (cur ≤ 89 →
          (autotuneTick snap cpuVal bl cur max_limit cpu_high cpu_low).1 =
            max 1 (7 * cur / 10))) ∧
      (tickCongested snap cpuVal cpu_high (tickBaseline bl snap) = false →
        ((cpuVal = none ∨ ∃ c, cpuVal = some c ∧ c ≤ cpu_low) →
          (autotuneTick snap cpuVal bl cur max_limit cpu_high cpu_low).1 =
            if cur < max_limit then cur + 1 else cur) ∧
        (∀ c, cpuVal = some c → cpu_low < c →
          (autotuneTick snap cpuVal bl cur max_limit cpu_high cpu_low).1 =
            cur)) ∧
      ((autotuneTick ⟨0, 0, 3, 0, 0, 0, 0⟩ none none 10 25 85 60).1 = 7 ∧
       (autotuneTick ⟨5, 0, 0, 0, 0, 0, 2⟩ (some 20) none 7 25 85 60).1 = 8) := by
  intro snap cpuVal bl cur max_limit cpu_high cpu_low h1 h2
  have hfloor : ∀ n, n < 90 → intMul07 n = 7 * n / 10 := by decide
  refine ⟨?_, ?_, by decide, by decide⟩
  · intro hcong
    constructor
    · simp [autotuneTick, hcong, setTargetClampNat]
    · intro h89
      have hle : intMul07 cur = 7 * cur / 10 := hfloor cur (by omega)
      have hdiv : 7 * cur / 10 ≤ cur := by omega
      simp [autotuneTick, hcong, setTargetClampNat, hle]
      omega
  · intro hcong
    constructor
    · rintro (rfl | ⟨c, rfl, hc⟩)
      · by_cases hlt : cur < max_limit <;>
          · simp [autotuneTick, hcong, setTargetClampNat, hlt]
            try omega
      · have hnc : ¬ cpu_low < c := not_lt.mpr hc
        by_cases hlt : cur < max_limit <;>
          · simp [autotuneTick, hcong, setTargetClampNat, hnc, hlt]
            try omega
    · rintro c rfl hc
      simp [autotuneTick, hcong, setTargetClampNat, hc]
      omega

/-- Closed instance of the tick behaviour: the congested tick at target 10
with `win_429 = 3` yields 7, and an uncongested low-CPU tick from 7 yields
8. -/
theorem autotune_tick_spec_witness :
    (autotuneTick ⟨0, 0, 3, 0, 0, 0, 0⟩ none none 10 25 85 60).1 = 7 ∧
    (autotuneTick ⟨5, 0, 0, 0, 0, 0, 2⟩ (some 20) none 7 25 85 60).1 = 8 :=
  (autotune_tick_spec ⟨0, 0, 3, 0, 0, 0, 0⟩ none none 10 25 85 60
    (by decide) (by decide)).2.2

/-! ## Conditional fetcher (boe_downloader_http.py, fetch_with_cache)

The fetch loop becomes a fueled state machine over a network oracle: the
`i`-th HTTP request of the call (including the 412-recovery request) receives
`env.net i`, either a response or a raised transport error.  The jitter draw
and HTTP-date parsing are oracles too.  Side effects are collected as an
event trace: requests issued (with their headers), sleeps (with duration),
and cache writes.  Fuel is `retries − attempt`, matching the
`while attempt < retries` loop. -/

structure StoredMeta where
  etag : Option String := none
  last_modified : Option String := none
  sha256 : Option String := none
  content_type : Option String := none
  fetched_at_utc : Option String := none
  deriving Repr, DecidableEq

structure Response where
  status : Int
  headers : List (String × String)
  body : List Nat
  deriving Repr, DecidableEq

/-- A raised exception from the HTTP client call. -/
inductive NetErr where
  | client (msg : String)
  | timeoutErr (msg : String)
  | other (msg : String)
  deriving Repr, DecidableEq

/-- Outcome of one `session.get`. -/
inductive NetOutcome where
  | resp (r : Response)
  | err (e : NetErr)
  deriving Repr, DecidableEq

/-- Observable events of a fetch. -/
inductive FetchEv where
  | request (headers : List (String × String))
  | sleep (d : ℚ)
  | writeBytes (content : List Nat) (meta : StoredMeta)
  | streamWrite (meta : StoredMeta)
  deriving Repr, DecidableEq

/-- Result of `fetch_with_cache`: a returned tuple, a propagated
`NonRetryableHTTPError`, or the terminal `RuntimeError` after the budget
(`failed lastStatus lastMsg` keeps the last retryable status or the last
transport message). -/
inductive FetchResult where
  | ok (content : Option (List Nat)) (meta : StoredMeta) (status : Int)
      (headers : List (String × String))
  | nonRetryable (status : Int)
  | failed (lastStatus : Option Int) (lastMsg : Option String)
  deriving Repr, DecidableEq

structure FetchEnv where
  net : Nat → NetOutcome
  uniform : ℚ → ℚ → ℚ
  dateParse : String → Option ℚ
  cached : Option (List Nat)
  storedMeta : StoredMeta

structure FetchArgs where
  accept : String
  retries : Nat
  base_delay : ℚ
  cap_delay : ℚ
  decorrelated : Bool
  return_bytes : Bool
  no_cache : Bool
  deriving Repr

def getHeader (hs : List (String × String)) (name : String) : Option String :=
  (hs.find? (fun p => p.1 = name)).map (fun p => p.2)

/-- `headers.get(name, dflt)`. -/
def getHeaderD (hs : List (String × String)) (name dflt : String) : String :=
  match getHeader hs name with
  | some v => v
  | none => dflt

/-- Python truthiness of an optional string (None and "" are falsy). -/
def truthyStr : Option String → Bool
  | some s => !s.isEmpty
  | none => false

/-- Embedding of `build_headers` (lines 327-335): `Accept` always, the
conditional validators only when `no_cache` is false and truthy. -/
def build_headers (accept : String) (meta : StoredMeta) (no_cache : Bool) :
    List (String × String) :=
  ("Accept", accept) ::
    (if no_cache then []
     else
       (match meta.etag with
        | some e => if e.isEmpty then [] else [("If-None-Match", e)]
        | none => []) ++
       (match meta.last_modified with
        | some lm => if lm.isEmpty then [] else [("If-Modified-Since", lm)]
        | none => []))

/-- Embedding of `update_meta_from_headers` (lines 338-345). -/
def update_meta_from_headers (meta : StoredMeta)
    (hs : List (String × String)) : StoredMeta :=
  let meta :=
    if truthyStr (getHeader hs "ETag") then
      { meta with etag := getHeader hs "ETag" }
    else meta
  let meta :=
    if truthyStr (getHeader hs "Last-Modified") then
      { meta with last_modified := getHeader hs "Last-Modified" }
    else meta
  if truthyStr (getHeader hs "Content-Type") then
    { meta with content_type := getHeader hs "Content-Type" }
  else meta

/-- Embedding of `handle_not_modified` (lines 402-414); `cached` is the
`read_cache_bytes` result. -/
def handle_not_modified (cached : Option (List Nat)) (meta : StoredMeta)
    (return_bytes : Bool) (hs : List (String × String)) : FetchResult :=
  if return_bytes then
    match cached with
    | some c => .ok (some c) meta 304 hs
    | none => .ok none meta 304 hs
  else .ok none meta 304 hs

def isDigits (s : String) : Bool := !s.isEmpty && s.data.all Char.isDigit

def digitsToNat (s : String) : Nat :=
  s.data.foldl (fun acc c => acc * 10 + (c.toNat - 48)) 0

/-- Embedding of `parse_retry_after` (lines 252-269); the HTTP-date branch
(now-relative) is the `dateParse` oracle, clamped at 0 as in the source. -/
def parse_retry_after (env : FetchEnv) (value : String) : Option ℚ :=
  let v := pyStrip value
  if v.isEmpty then none
  else if isDigits v then some ((digitsToNat v : Nat) : ℚ)
  else (env.dateParse v).map (fun q => max 0 q)

/-- Embedding of `compute_backoff_sleep` (lines 386-399). -/
def compute_backoff_sleep (env : FetchEnv) (use_decorrelated : Bool)
    (sleep_s base_delay cap_delay : ℚ) (attempt : Nat) : ℚ :=
  if use_decorrelated then
    env.uniform base_delay (min cap_delay (sleep_s * 3))
  else
    env.uniform 0 (min cap_delay (base_delay * 2 ^ (attempt - 1)))

/-- The 2xx (and any other non-304, non-error) persistence path: buffer and
write when `return_bytes` (meta saved without `sha256`), otherwise stream to
the cache slot computing the hash into the sidecar. -/
def writeOutcome (args : FetchArgs) (r : Response) (meta : StoredMeta) :
    FetchResult × List FetchEv :=
  if args.return_bytes then
    (.ok (some r.body) meta r.status r.headers, [.writeBytes r.body meta])
  else
    let meta2 := { meta with sha256 := some (bytesToHex (sha256Digest r.body)) }
    (.ok none meta2 r.status r.headers, [.streamWrite meta2])

/-- Embedding of `retry_without_conditionals` (lines 417-461): one request
with only `Accept` and a fresh `StoredMeta`; any network exception is
propagated to the caller (the main loop's handlers). -/
def retryNoCond (env : FetchEnv) (args : FetchArgs) (reqIdx : Nat) :
    Except NetErr FetchResult × List FetchEv :=
  let hdrs : List (String × String) := [("Accept", args.accept)]
  match env.net reqIdx with
  | .resp r =>
      if r.status = 304 then
        (.ok (handle_not_modified env.cached {} args.return_bytes r.headers),
         [.request hdrs])
      else
        let meta := update_meta_from_headers {} r.headers
        let (res, evs) := writeOutcome args r meta
        (.ok res, .request hdrs :: evs)
  | .err e => (.error e, [.request hdrs])

/-- The retry loop of `fetch_with_cache` (lines 495-593).  `attempt` counts
completed iterations (the running attempt number is `attempt + 1`), `fuel` is
`retries − attempt` (the loop guard `attempt < retries` is `0 < fuel`),
`reqIdx` numbers the HTTP requests issued so far, and `lastSt`/`lastMsg` keep
the last retryable status or transport message for the terminal error.
Within an iteration: 304 → `handle_not_modified`; 412 with caching → the
one-shot `retryNoCond`, whose own network exception falls into this
iteration's handlers; status ≥ 400 → retryable (429/503/5xx, honouring a
positive Retry-After by sleeping `min(cap_delay, q)` with the jitter state
untouched, otherwise jitter backoff) or `NonRetryableHTTPError` re-raised
immediately; otherwise persist and return. -/
def fetchLoop (env : FetchEnv) (args : FetchArgs)
    (headers : List (String × String)) (meta : StoredMeta) :
    Nat → Nat → ℚ → Nat → Option Int → Option String →
    FetchResult × List FetchEv
  | 0, _, _, _, lastSt, lastMsg => (.failed lastSt lastMsg, [])
  | fuel + 1, attempt, sleep_s, reqIdx, _, _ =>
      let att := attempt + 1
      match env.net reqIdx with
      | .resp r =>
          if r.status = 304 then
            (handle_not_modified env.cached meta args.return_bytes r.headers,
             [.request headers])
          else if r.status = 412 ∧ args.no_cache = false then
            match retryNoCond env args (reqIdx + 1) with
            | (.ok res, evs) => (res, .request headers :: evs)
            | (.error e, evs) =>
                match e with
                | .client m | .timeoutErr m =>
                    if fuel = 0 then
                      (.failed none (some m), .request headers :: evs)
                    else
                      let ns := compute_backoff_sleep env args.decorrelated
                        sleep_s args.base_delay args.cap_delay att
                      let rest := fetchLoop env args headers meta fuel att ns
                        (reqIdx + 2) none (some m)
                      (rest.1, .request headers :: evs ++ .sleep ns :: rest.2)
                | .other m =>
                    if fuel = 0 then
                      (.failed none (some m), .request headers :: evs)
                    else
                      let d := min args.cap_delay (args.base_delay * att)
                      let rest := fetchLoop env args headers meta fuel att
                        sleep_s (reqIdx + 2) none (some m)
                      (rest.1, .request headers :: evs ++ .sleep d :: rest.2)
          else if 400 ≤ r.status then
            if r.status = 429 ∨ r.status = 503 ∨ 500 ≤ r.status then
              if fuel = 0 then
                (.failed (some r.status) none, [.request headers])
              else
                let jit :=
                  let ns := compute_backoff_sleep env args.decorrelated
                    sleep_s args.base_delay args.cap_delay att
                  let rest := fetchLoop env args headers meta fuel att ns
                    (reqIdx + 1) (some r.status) none
                  (rest.1, .request headers :: .sleep ns :: rest.2)
                match parse_retry_after env
                    (getHeaderD r.headers "Retry-After" "") with
                | some q =>
                    if 0 < q then
                      let rest := fetchLoop env args headers meta fuel att
                        sleep_s (reqIdx + 1) (some r.status) none
                      (rest.1,
                       .request headers :: .sleep (min args.cap_delay q) ::
                         rest.2)
                    else jit
                | none => jit
            else (.nonRetryable r.status, [.request headers])
          else
            let meta2 := update_meta_from_headers meta r.headers
            let (res, evs) := writeOutcome args r meta2
            (res, .request headers :: evs)
      | .err e =>
          match e with
          | .client m | .timeoutErr m =>
              if fuel = 0 then (.failed none (some m), [.request headers])
              else
                let ns := compute_backoff_sleep env args.decorrelated sleep_s
                  args.base_delay args.cap_delay att
                let rest := fetchLoop env args headers meta fuel att ns
                  (reqIdx + 1) none (some m)
                (rest.1, .request headers :: .sleep ns :: rest.2)
          | .other m =>
              if fuel = 0 then (.failed none (some m), [.request headers])
              else
                let d := min args.cap_delay (args.base_delay * att)
                let rest := fetchLoop env args headers meta fuel att sleep_s
                  (reqIdx + 1) none (some m)
                (rest.1, .request headers :: .sleep d :: rest.2)

/-- Embedding of `fetch_with_cache` (lines 464-593): headers from the stored
sidecar meta, then the retry loop with `attempt = 0`,
`sleep_s = base_delay`. -/
def fetch_with_cache (env : FetchEnv) (args : FetchArgs) :
    FetchResult × List FetchEv :=
  let headers := build_headers args.accept env.storedMeta args.no_cache
  fetchLoop env args headers env.storedMeta args.retries 0 args.base_delay 0
    none none

/-- C5: when conditional validators were sent (truthy stored `etag` or
`last_modified`, caching enabled) and the first response is a 412, the
fetcher immediately issues exactly one follow-up request carrying only the
`Accept` header, computed against a fresh empty meta, with no sleep in
between; and whenever that follow-up receives any response, the whole fetch
consists of exactly those two requests — the main loop performs no further
iteration, so the recovery consumes none of the retry budget. -/
theorem fetch_412_recovery :
    ∀ (env : FetchEnv) (args : FetchArgs) (r : Response),
      1 ≤ args.retries →
      args.no_cache = false →
      (truthyStr env.storedMeta.etag = true ∨
        truthyStr env.storedMeta.last_modified = true) →
      env.net 0 = .resp r →
      r.status = 412 →
      ((fetch_with_cache env args).2.take 2 =
        [.request (build_headers args.accept env.storedMeta false),
         .request [("Accept", args.accept)]]) ∧
      (∀ r2, env.net 1 = .resp r2 →
        fetch_with_cache env args =
          ((if r2.status = 304 then
              handle_not_modified env.cached {} args.return_bytes r2.headers
            else
              (writeOutcome args r2 (update_meta_from_headers {} r2.headers)).1),
           .request (build_headers args.accept env.storedMeta false) ::
             .request [("Accept", args.accept)] ::
             (if r2.status = 304 then []
              else
                (writeOutcome args r2
                  (update_meta_from_headers {} r2.headers)).2))) := by
  intro env args r hret hnc _hval hnet0 hst
  obtain ⟨k, hk⟩ : ∃ k, args.retries = k + 1 :=
    ⟨args.retries - 1, by omega⟩
  constructor
  · cases hnet1 : env.net 1 with
    | resp r2 =>
        by_cases h304 : r2.status = 304 <;>
          simp [fetch_with_cache, hk, fetchLoop, hnet0, hst, hnc, retryNoCond,
            hnet1, h304, writeOutcome, hnc]
    | err e =>
        cases e with
        | client m =>
            cases k <;>
              simp [fetch_with_cache, hk, fetchLoop, hnet0, hst, hnc,
                retryNoCond, hnet1]
        | timeoutErr m =>
            cases k <;>
              simp [fetch_with_cache, hk, fetchLoop, hnet0, hst, hnc,
                retryNoCond, hnet1]
        | other m =>
            cases k <;>
              simp [fetch_with_cache, hk, fetchLoop, hnet0, hst, hnc,
                retryNoCond, hnet1]
  · intro r2 hnet1
    by_cases h304 : r2.status = 304 <;>
      simp [fetch_with_cache, hk, fetchLoop, hnet0, hst, hnc, retryNoCond,
        hnet1, h304]

/-- The environment of the C5 witness: stored validators, a 412 first
response, a 200 follow-up. -/
def w5Env : FetchEnv where
  net := fun i =>
    if i = 0 then .resp ⟨412, [], []⟩
    else .resp ⟨200, [("ETag", "fresh")], [60, 120, 62]⟩
  uniform := fun lo _ => lo
  dateParse := fun _ => none
  cached := none
  storedMeta := { etag := some "abc", last_modified := some "lm" }

def w5Args : FetchArgs where
  accept := "application/xml"
  retries := 3
  base_delay := 1
  cap_delay := 10
  decorrelated := false
  return_bytes := true
  no_cache := false

/-- Closed instance of the 412 recovery: with validators stored and a 412
then 200, the fetch is exactly two requests, the second `Accept`-only. -/
theorem fetch_412_recovery_witness :
    (fetch_with_cache w5Env w5Args).2.take 2 =
      [.request (build_headers "application/xml"
        { etag := some "abc", last_modified := some "lm" } false),
       .request [("Accept", "application/xml")]] :=
  (fetch_412_recovery w5Env w5Args ⟨412, [], []⟩ (by decide) rfl
    (Or.inl (by decide)) rfl rfl).1

/-- C6: in the main loop, a response with status ≥ 400 outside the
412-recovery case is retryable exactly when the status is 429, 503 or ≥ 500;
a non-retryable status propagates immediately — the iteration returns the
error with no sleep and no further event; a retryable status with remaining
budget and a parsed positive `Retry-After` of `q` makes the loop sleep
`min(cap_delay, q)` and continue with the jitter state `sleep_s` unchanged
(no jitter backoff this attempt); a retryable status on the last attempt
terminates the fetch. -/
theorem fetch_error_status_handling :
    ∀ (env : FetchEnv) (args : FetchArgs) (headers : List (String × String))
      (meta : StoredMeta) (fuel attempt : Nat) (sleep_s : ℚ) (reqIdx : Nat)
      (lastSt : Option Int) (lastMsg : Option String) (r : Response),
      env.net reqIdx = .resp r →
      400 ≤ r.status →
      ¬(r.status = 412 ∧ args.no_cache = false) →
      (¬(r.status = 429 ∨ r.status = 503 ∨ 500 ≤ r.status) →
        fetchLoop env args headers meta (fuel + 1) attempt sleep_s reqIdx
            lastSt lastMsg =
          (.nonRetryable r.status, [.request headers])) ∧
      ((r.status = 429 ∨ r.status = 503 ∨ 500 ≤ r.status) → fuel = 0 →
        fetchLoop env args headers meta (fuel + 1) attempt sleep_s reqIdx
            lastSt lastMsg =
          (.failed (some r.status) none, [.request headers])) ∧
      ((r.status = 429 ∨ r.status = 503 ∨ 500 ≤ r.status) → 0 < fuel →
        ∀ q, parse_retry_after env (getHeaderD r.headers "Retry-After" "") =
            some q → 0 < q →
          fetchLoop env args headers meta (fuel + 1) attempt sleep_s reqIdx
              lastSt lastMsg =
            ((fetchLoop env args headers meta fuel (attempt + 1) sleep_s
                (reqIdx + 1) (some r.status) none).1,
             .request headers :: .sleep (min args.cap_delay q) ::
               (fetchLoop env args headers meta fuel (attempt + 1) sleep_s
                 (reqIdx + 1) (some r.status) none).2)) := by
  intro env args headers meta fuel attempt sleep_s reqIdx lastSt lastMsg r
    hnet h400 h412
  have h304 : ¬ r.status = 304 := by omega
  refine ⟨?_, ?_, ?_⟩
  · intro hnr
    simp [fetchLoop, hnet, h304, h412, h400, hnr]
  · intro hr hf
    subst hf
    simp [fetchLoop, hnet, h304, h412, h400, hr]
  · intro hr hf q hq hqpos
    have hfne : ¬ fuel = 0 := by omega
    simp [fetchLoop, hnet, h304, h412, h400, hr, hq, hqpos, hfne]

def w6Env : FetchEnv where
  net := fun i =>
    if i = 0 then .resp ⟨429, [("Retry-After", "2")], []⟩
    else .resp ⟨200, [], []⟩
  uniform := fun lo _ => lo
  dateParse := fun _ => none
  cached := none
  storedMeta := {}

def w6Args : FetchArgs where
  accept := "application/xml"
  retries := 2
  base_delay := 1
  cap_delay := 10
  decorrelated := false
  return_bytes := false
  no_cache := false

/-- Closed instance of the Retry-After handling: first response 429 with
`Retry-After: 2`, budget left — the loop sleeps `min(10, 2)` and retries with
the jitter state unchanged. -/
theorem fetch_error_status_handling_witness :
    fetchLoop w6Env w6Args [("Accept", "application/xml")] {} 2 0 1 0 none
        none =
      ((fetchLoop w6Env w6Args [("Accept", "application/xml")] {} 1 1 1 1
          (some 429) none).1,
       .request [("Accept", "application/xml")] ::
         .sleep (min (10 : ℚ) 2) ::
         (fetchLoop w6Env w6Args [("Accept", "application/xml")] {} 1 1 1 1
           (some 429) none).2) :=
  ((fetch_error_status_handling w6Env w6Args [("Accept", "application/xml")]
      {} 1 0 1 0 none none ⟨429, [("Retry-After", "2")], []⟩ rfl (by decide)
      (by decide)).2.2 (by decide) (by decide) 2 (by decide) (by decide))

/-- C10: on the 412-recovery path every response that is not a 304 — any
status, including 404 or 500 — is returned to the caller without raising,
with the body and header-derived fresh meta persisted into the cache slot
and sidecar (a write event always occurs and the result is `ok` carrying the
response status); by contrast, the primary loop on a status ≥ 400 raises:
non-retryable statuses return the error immediately with no write event, and
retryable ones either terminate the fetch (no write) or sleep — the only
event between the failing response and the next attempt — so nothing is
persisted for that response. -/
theorem recovery_persists_error_statuses :
    ∀ (env : FetchEnv) (args : FetchArgs) (reqIdx : Nat) (r : Response),
      env.net reqIdx = .resp r →
      r.status ≠ 304 →
      (retryNoCond env args reqIdx =
        (.ok (writeOutcome args r (update_meta_from_headers {} r.headers)).1,
         .request [("Accept", args.accept)] ::
           (writeOutcome args r (update_meta_from_headers {} r.headers)).2) ∧
       (∃ content meta2,
         (writeOutcome args r (update_meta_from_headers {} r.headers)).1 =
           .ok content meta2 r.status r.headers) ∧
       (writeOutcome args r (update_meta_from_headers {} r.headers)).2 ≠ []) ∧
      (400 ≤ r.status → ¬(r.status = 412 ∧ args.no_cache = false) →
        ∀ (headers : List (String × String)) (meta : StoredMeta)
          (fuel attempt : Nat) (sleep_s : ℚ) (lastSt : Option Int)
          (lastMsg : Option String),
          (¬(r.status = 429 ∨ r.status = 503 ∨ 500 ≤ r.status) →
            fetchLoop env args headers meta (fuel + 1) attempt sleep_s reqIdx
                lastSt lastMsg =
              (.nonRetryable r.status, [.request headers])) ∧
          ((r.status = 429 ∨ r.status = 503 ∨ 500 ≤ r.status) → 0 < fuel →
            ∃ (d : ℚ) (cont : FetchResult × List FetchEv),
              fetchLoop env args headers meta (fuel + 1) attempt sleep_s
                  reqIdx lastSt lastMsg =
                (cont.1, .request headers :: .sleep d :: cont.2)) ∧
          ((r.status = 429 ∨ r.status = 503 ∨ 500 ≤ r.status) → fuel = 0 →
            fetchLoop env args headers meta (fuel + 1) attempt sleep_s reqIdx
                lastSt lastMsg =
              (.failed (some r.status) none, [.request headers]))) := by
  intro env args reqIdx r hnet h304
  constructor
  · refine ⟨?_, ?_, ?_⟩
    · simp [retryNoCond, hnet, h304]
    · by_cases hrb : args.return_bytes <;> simp [writeOutcome, hrb]
    · by_cases hrb : args.return_bytes <;> simp [writeOutcome, hrb]
  · intro h400 h412 headers meta fuel attempt sleep_s lastSt lastMsg
    refine ⟨?_, ?_, ?_⟩
    · intro hnr
      simp [fetchLoop, hnet, h304, h412, h400, hnr]
    · intro hr hf
      have hfne : ¬ fuel = 0 := by omega
      cases hra : parse_retry_after env (getHeaderD r.headers "Retry-After" "")
      case none =>
          refine ⟨compute_backoff_sleep env args.decorrelated sleep_s
              args.base_delay args.cap_delay (attempt + 1),
            fetchLoop env args headers meta fuel (attempt + 1)
              (compute_backoff_sleep env args.decorrelated sleep_s
                args.base_delay args.cap_delay (attempt + 1)) (reqIdx + 1)
              (some r.status) none, ?_⟩
          simp [fetchLoop, hnet, h304, h412, h400, hr, hra, hfne]
      case some q =>
          by_cases hq : 0 < q
          · refine ⟨min args.cap_delay q,
              fetchLoop env args headers meta fuel (attempt + 1) sleep_s
                (reqIdx + 1) (some r.status) none, ?_⟩
            simp [fetchLoop, hnet, h304, h412, h400, hr, hra, hq, hfne]
          · refine ⟨compute_backoff_sleep env args.decorrelated sleep_s
                args.base_delay args.cap_delay (attempt + 1),
              fetchLoop env args headers meta fuel (attempt + 1)
                (compute_backoff_sleep env args.decorrelated sleep_s
                  args.base_delay args.cap_delay (attempt + 1)) (reqIdx + 1)
              (some r.status) none, ?_⟩
            simp [fetchLoop, hnet, h304, h412, h400, hr, hra, hq, hfne]
    · intro hr hf
      subst hf
      simp [fetchLoop, hnet, h304, h412, h400, hr]

def w10Env : FetchEnv where
  net := fun _ => .resp ⟨404, [("Content-Type", "text/html")], [110, 111]⟩
  uniform := fun lo _ => lo
  dateParse := fun _ => none
  cached := none
  storedMeta := {}

/-- Closed instance: the recovery request receiving a 404 returns an `ok`
result with status 404 and persists the body. -/
theorem recovery_persists_error_statuses_witness :
    retryNoCond w10Env w5Args 0 =
      (.ok (writeOutcome w5Args ⟨404, [("Content-Type", "text/html")],
          [110, 111]⟩
        (update_meta_from_headers {}
          [("Content-Type", "text/html")])).1,
       .request [("Accept", "application/xml")] ::
         (writeOutcome w5Args ⟨404, [("Content-Type", "text/html")],
            [110, 111]⟩
           (update_meta_from_headers {}
             [("Content-Type", "text/html")])).2) :=
  (recovery_persists_error_statuses w10Env w5Args 0
    ⟨404, [("Content-Type", "text/html")], [110, 111]⟩ rfl (by decide)).1.1

/-! ## Pipeline per-item handler (boe_downloader_pipeline.py, handle_one)

`handle_one` is embedded at the level of its manifest behaviour: an
environment fixes the outcome of every fallible step, and the embedding
returns the list of manifest lines appended (each with its `ok` flag and
`status`), following the source's `try/except` control flow line by line.
`write_manifest` itself is modelled as infallible (the spec makes manifest
write failures abort the run). -/

/-- Outcome of the `fetch_with_cache` call inside `handle_one`: a returned
status, or one of the three exception classes distinguished by the
handlers. -/
inductive PipeFetchOutcome where
  | fetched (status : Option Int)
  | raiseHttp (status : Int)
  | raiseTimeout
  | raiseOther
  deriving Repr, DecidableEq

/-- Outcomes of the fallible steps of one `handle_one` call.
`dbLookupFails` covers `upsert_resource`/`get_resource_format_status`,
`postFetchFails` covers `ensure_payload_copy`, `attempt_finish` and
`update_resource_format(_not_modified)` — the operations run after the
success manifest line is appended. -/
structure ItemEnv where
  hasUrl : Bool
  dbAttached : Bool
  dbLookupFails : Bool
  skipPath : Bool
  attemptStartFails : Bool
  fetch : PipeFetchOutcome
  postFetchFails : Bool
  deriving Repr, DecidableEq

/-- One appended manifest record (the fields the counting argument needs). -/
structure ManifestLine where
  ok : Bool
  status : Option Int
  deriving Repr, DecidableEq

/-- The `ok` flag of the success-path manifest line:
`status is not None and status < 400`. -/
def okFlag : Option Int → Bool
  | some v => decide (v < 400)
  | none => false

/-- Manifest lines appended by one `handle_one` call (lines 268-513): the
missing-url `KeyError`, ledger-lookup failures and `attempt_start` failures
land in `except Exception` with `status` still `None`; the skip path appends
one 304 line and returns; a successful fetch appends its line *before*
`ensure_payload_copy`/`attempt_finish`/`update_resource_format`, so a failure
there lands in `except Exception` which appends a second line with the same
status; each fetch-exception handler appends exactly one failure line. -/
def handle_one_manifest (e : ItemEnv) : List ManifestLine :=
  if e.hasUrl = false then [⟨false, none⟩]
  else if e.dbAttached = true ∧ e.dbLookupFails = true then [⟨false, none⟩]
  else if e.dbAttached = true ∧ e.skipPath = true then [⟨true, some 304⟩]
  else if e.dbAttached = true ∧ e.attemptStartFails = true then
    [⟨false, none⟩]
  else
    match e.fetch with
    | .fetched st =>
        ⟨okFlag st, st⟩ :: (if e.postFetchFails = true then [⟨false, st⟩] else [])
    | .raiseHttp st => [⟨false, some st⟩]
    | .raiseTimeout => [⟨false, none⟩]
    | .raiseOther => [⟨false, none⟩]

/-- C2 counterexample: a target whose fetch succeeds with 200 but whose
`attempt_finish`/`ensure_payload_copy`/`update_resource_format` step fails
afterwards gets TWO manifest lines — the success line already appended, then
the failure line from the generic handler. -/
theorem handle_one_two_manifest_lines :
    handle_one_manifest
        ⟨true, true, false, false, false, .fetched (some 200), true⟩ =
      [⟨true, some 200⟩, ⟨false, some 200⟩] ∧
    (handle_one_manifest
        ⟨true, true, false, false, false, .fetched (some 200), true⟩).length =
      2 := by
  refine ⟨by decide, by decide⟩

/-- C2 amended: every `handle_one` call appends one or two manifest lines;
it appends exactly two precisely when the fetch returned and a ledger or
filesystem operation after the success line failed, and exactly one on every
other control path — the skip path (a single ok-304 line), the successful
fetch with successful post-processing (a single line with the fetch status),
and each failure path (HTTP response error, timeout, other exception, missing
url, ledger-lookup or attempt-start failure: a single `ok=false` line). -/
theorem handle_one_manifest_count :
    ∀ e : ItemEnv,
      (1 ≤ (handle_one_manifest e).length ∧
        (handle_one_manifest e).length ≤ 2) ∧
      ((handle_one_manifest e).length = 2 ↔
        (e.hasUrl = true ∧
         ¬(e.dbAttached = true ∧
           (e.dbLookupFails = true ∨ e.skipPath = true ∨
             e.attemptStartFails = true)) ∧
         (∃ st, e.fetch = .fetched st) ∧ e.postFetchFails = true)) ∧
      (∀ f p, handle_one_manifest ⟨true, true, false, true, false, f, p⟩ =
        [⟨true, some 304⟩]) ∧
      (∀ st d, handle_one_manifest
          ⟨true, d, false, false, false, .fetched st, false⟩ =
        [⟨okFlag st, st⟩]) ∧
      (∀ st d p, handle_one_manifest
          ⟨true, d, false, false, false, .raiseHttp st, p⟩ =
        [⟨false, some st⟩]) ∧
      (∀ d p, handle_one_manifest
          ⟨true, d, false, false, false, .raiseTimeout, p⟩ =
        [⟨false, none⟩]) ∧
      (∀ d p, handle_one_manifest
          ⟨true, d, false, false, false, .raiseOther, p⟩ =
        [⟨false, none⟩]) := by
  intro e
  obtain ⟨u, d, lf, sp, asf, f, pf⟩ := e
  refine ⟨?_, ?_, ?_, ?_, ?_, ?_, ?_⟩
  · cases u <;> cases d <;> cases lf <;> cases sp <;> cases asf <;>
      cases pf <;> cases f <;> simp [handle_one_manifest]
  · cases u <;> cases d <;> cases lf <;> cases sp <;> cases asf <;>
      cases pf <;> cases f <;> simp [handle_one_manifest]
  · intro f2 p
    cases f2 <;> cases p <;> simp [handle_one_manifest]
  · intro st d2
    cases d2 <;> simp [handle_one_manifest]
  · intro st d2 p
    cases d2 <;> cases p <;> simp [handle_one_manifest]
  · intro d2 p
    cases d2 <;> cases p <;> simp [handle_one_manifest]
  · intro d2 p
    cases d2 <;> cases p <;> simp [handle_one_manifest]

end Boe
